import Mathlib

/-!
Shallow embedding of the chatbot security-audit repository.

Source files embedded:
- src/security/input_validator.py  (validate_input, sanitize_sql)
- src/auth/middleware.py           (authenticate, requires_auth, jwt usage)
- src/chatbot/core.py              (ChatbotCore: process_message, save and
  query operations on the sqlite store, authenticate_user,
  search_chat_history, get_chat_history)

Python strings are Lean String, sqlite rows are Lean structures, and the
string-interpolated SQL queries of core.py are executed through a small
executable semantics of the SQL fragment those queries live in
(tokenizer with quoted literals and line comments, expression
parser with AND over OR precedence, LIKE with percent wildcards).
Fallible calls return Option or Except; a caught exception is the
corresponding error branch.
-/

namespace SecAudit

set_option maxRecDepth 100000

/-- The single-quote character, kept as a named constant. -/
def squoteChar : Char := Char.ofNat 39

/-- The double-quote character, kept as a named constant. -/
def dquoteChar : Char := Char.ofNat 34

def semiChar : Char := ';'

def dashChar : Char := '-'

/-- One-character string holding a single quote. -/
def sq : String := String.singleton squoteChar

/-! Embedding of src/security/input_validator.py. -/

/-- Escape of one character, as html.escape with quote=True does. -/
def escChar (c : Char) : List Char :=
  if c = '&' then "&amp;".data
  else if c = '<' then "&lt;".data
  else if c = '>' then "&gt;".data
  else if c = dquoteChar then "&quot;".data
  else if c = squoteChar then ("&#x27;").data
  else [c]

/-- html.escape of a whole string. -/
def escapeHtml (s : String) : String := String.mk ((s.data.map escChar).flatten)

/-- Helper for the email regex: does the list start with a character other
than an at sign. -/
def headNonAt : List Char → Bool
  | c :: _ => !(c == '@')
  | [] => false

/-- Scans for a dot that is preceded only by non-at characters and is
followed by one more non-at character.  This is the part of the regex
reading a nonempty at-free run, a dot, then one non-at character. -/
def dotScan : List Char → Bool
  | [] => false
  | c :: t => (c == '.' && headNonAt t) || (!(c == '@') && dotScan t)

/-- After the at sign the regex needs one non-at character and then a dot
with a trailing non-at character. -/
def afterAt : List Char → Bool
  | [] => false
  | c :: t => !(c == '@') && dotScan t

/-- Scans over at-free characters looking for the at sign of the match. -/
def atScan : List Char → Bool
  | [] => false
  | c :: t => (c == '@' && afterAt t) || (!(c == '@') && atScan t)

/-- Executable semantics of re.match on the pattern used by
validate_input for emails: a match anchored at the start only, so
anything may follow the matched prefix. -/
def emailMatch : List Char → Bool
  | [] => false
  | c :: t => !(c == '@') && atScan t

/-- Surrounding-whitespace strip, as the Python str.strip call. -/
def pyStrip (s : String) : String :=
  String.mk (((s.data.dropWhile Char.isWhitespace).reverse.dropWhile Char.isWhitespace).reverse)

/-- Input kinds of validate_input (text, email, number). -/
inductive InputType where
  | text
  | email
  | number
deriving DecidableEq

/-- Embedding of validate_input: the empty (falsy) input returns the empty
string at once; otherwise the input is stripped, checked according to its
kind, and html-escaped.  A raised ValueError is the error branch. -/
def validate_input (userInput : String) (inputType : InputType) : Except String String :=
  if userInput = "" then Except.ok ""
  else
    let cleaned := pyStrip userInput
    match inputType with
    | InputType.email =>
        if emailMatch cleaned.data then Except.ok (escapeHtml cleaned)
        else Except.error "Invalid email format"
    | InputType.number =>
        if !cleaned.isEmpty && cleaned.data.all Char.isDigit then Except.ok (escapeHtml cleaned)
        else Except.error "Input must be numeric"
    | InputType.text => Except.ok (escapeHtml cleaned)

/-- The character class of the sanitize_sql regex: semicolon, hyphen and
double quote.  The regex writes the hyphen twice but a character class
holds a set, so the class is exactly these three characters. -/
def badSqlChar (c : Char) : Bool := c == semiChar || c == dashChar || c == dquoteChar

/-- Embedding of sanitize_sql: re.sub with a character class and an empty
replacement deletes every occurrence of each character of the class. -/
def sanitize_sql (s : String) : String :=
  String.mk (s.data.filter (fun c => !badSqlChar c))

/-- Substring test on character lists, used for the rule-based reply
generator and for checking outputs for forbidden fragments. -/
def hasSub (needle : List Char) : List Char → Bool
  | [] => needle.isEmpty
  | c :: t => needle.isPrefixOf (c :: t) || hasSub needle t

/-- Substring test on strings. -/
def containsSub (needle hay : String) : Bool := hasSub needle.data hay.data

/-- Modelled from the spec: the spec says strip_sql_metacharacters removes
the literal sequences semicolon and double hyphen and double-quote
characters; this comparison definition removes exactly those sequences and
keeps lone hyphens.  It exists only to be compared with sanitize_sql. -/
def spec_strip : List Char → List Char
  | [] => []
  | [c] => if c = semiChar ∨ c = dquoteChar then [] else [c]
  | c :: c2 :: t =>
      if c = semiChar ∨ c = dquoteChar then spec_strip (c2 :: t)
      else if c = dashChar ∧ c2 = dashChar then spec_strip t
      else c :: spec_strip (c2 :: t)

/-- String version of the spec-worded removal rule. -/
def spec_strip_sql (s : String) : String := String.mk (spec_strip s.data)

/-- Spec-worded email shape used to state what the anchored-prefix regex
accepts: some nonempty at-free local part, an at sign, a nonempty at-free
run, a dot, one further non-at character, then an arbitrary tail. -/
def EmailDecomp (l : List Char) : Prop :=
  ∃ a b c0 d, l = a ++ '@' :: (b ++ '.' :: c0 :: d) ∧
    a ≠ [] ∧ b ≠ [] ∧ '@' ∉ a ∧ '@' ∉ b ∧ c0 ≠ '@'

/-! Embedding of src/auth/middleware.py. -/

/-- A value inside a token claim set: strings and numbers occur. -/
inductive ClaimVal where
  | str (s : String)
  | num (n : Int)
deriving DecidableEq

/-- A decoded token payload: the claim set as key-value pairs. -/
abbrev JwtPayload := List (String × ClaimVal)

/-- The process-wide signing secret of middleware.py. -/
def SECRET_KEY : String := "your-secret-key-here"

/-- The in-memory user table of middleware.py: username mapped to the
pair of stored password and role. -/
def USERS : List (String × String × String) :=
  [("admin", "secure_hashed_password_123", "admin"),
   ("user", "another_hashed_password_456", "user")]

/-- Length-prefixed encoding of one string, used by the token wire
format. -/
def encLen (s : String) : String := toString s.length ++ "#" ++ s

/-- Wire encoding of one claim. -/
def encClaim : String × ClaimVal → String
  | (k, ClaimVal.str s) => encLen k ++ "s" ++ encLen s
  | (k, ClaimVal.num n) => encLen k ++ "n" ++ toString n ++ "#"

/-- Wire encoding of a payload: claim count, then each claim. -/
def encPayload (p : JwtPayload) : String :=
  toString p.length ++ "#" ++ String.join (p.map encClaim)

/-- Stand-in for the HS256 signature: a concrete keyed digest of the
encoded payload.  The claims under audit concern the fields and the
expiry check, not cryptographic strength, so any executable keyed
function of the payload is a faithful model of the signature. -/
def sigOf (key : String) (p : JwtPayload) : Nat :=
  ((key ++ "|" ++ encPayload p).data.foldl
    (fun a c => (a * 131 + c.toNat) % 1000000007) 7)

/-- Embedding of jwt.encode: the signed, self-contained token string. -/
def jwt_encode (p : JwtPayload) (key : String) : String :=
  encPayload p ++ "!" ++ toString (sigOf key p)

/-- Reads a decimal number terminated by a hash mark. -/
def parseNat (fuel : Nat) (acc : Nat) (l : List Char) : Option (Nat × List Char) :=
  match fuel with
  | 0 => none
  | f + 1 =>
    match l with
    | [] => none
    | c :: t =>
        if c.isDigit then parseNat f (acc * 10 + (c.toNat - 48)) t
        else if c = '#' then some (acc, t)
        else none

/-- Reads one length-prefixed string of the token wire format. -/
def parseLenStr (l : List Char) : Option (String × List Char) :=
  match parseNat (l.length + 1) 0 l with
  | some (n, r) => if n ≤ r.length then some (String.mk (r.take n), r.drop n) else none
  | none => none

/-- Reads one claim of the token wire format. -/
def parseClaim (l : List Char) : Option ((String × ClaimVal) × List Char) :=
  match parseLenStr l with
  | some (k, r) =>
    match r with
    | c :: r2 =>
        if c = 's' then (parseLenStr r2).map (fun p => ((k, ClaimVal.str p.1), p.2))
        else if c = 'n' then
          match r2 with
          | c2 :: r3 =>
              if c2 = dashChar then
                (parseNat (r3.length + 1) 0 r3).map (fun p => ((k, ClaimVal.num (-(p.1 : Int))), p.2))
              else (parseNat (r2.length + 1) 0 r2).map (fun p => ((k, ClaimVal.num (p.1 : Int)), p.2))
          | [] => none
        else none
    | [] => none
  | none => none

/-- Reads the given number of claims. -/
def parseClaims (n : Nat) (l : List Char) : Option (JwtPayload × List Char) :=
  match n with
  | 0 => some ([], l)
  | m + 1 =>
    match parseClaim l with
    | some (kv, r) => (parseClaims m r).map (fun p => (kv :: p.1, p.2))
    | none => none

/-- Reads a whole payload from the front of a token string. -/
def decPayload (l : List Char) : Option (JwtPayload × List Char) :=
  match parseNat (l.length + 1) 0 l with
  | some (n, r) => parseClaims n r
  | none => none

/-- Reads the trailing signature digits of a token. -/
def parseSigDigits (l : List Char) : Option Nat :=
  if l.isEmpty then none
  else if l.all Char.isDigit then
    some (l.foldl (fun a c => a * 10 + (c.toNat - 48)) 0)
  else none

/-- Failures of jwt.decode as caught by the middleware: the expired
variant is a subclass of the invalid-token error in pyjwt, and the
middleware catches the common superclass. -/
inductive JwtError where
  | invalidTok
  | expired
deriving DecidableEq

/-- Embedding of jwt.decode: parse the self-contained token, check the
signature against the key, and, only when an exp claim is present,
compare it with the current time.  Malformed input, a bad signature and
an elapsed expiry are the error branches. -/
def jwt_decode (tok : String) (key : String) (now : Int) : Except JwtError JwtPayload :=
  match decPayload tok.data with
  | some (p, rest) =>
    match rest with
    | bang :: digits =>
        if bang = '!' then
          match parseSigDigits digits with
          | some sig =>
              if sigOf key p = sig then
                match List.lookup "exp" p with
                | some (ClaimVal.num e) => if e ≤ now then Except.error JwtError.expired else Except.ok p
                | _ => Except.ok p
              else Except.error JwtError.invalidTok
          | none => Except.error JwtError.invalidTok
        else Except.error JwtError.invalidTok
    | [] => Except.error JwtError.invalidTok
  | none => Except.error JwtError.invalidTok

/-- Embedding of middleware.authenticate: look the username up in the
in-memory table, compare the stored password for equality, and on
success return the encoded token holding the username and role claims. -/
def authenticate (username password : String) : Option String :=
  match List.lookup username USERS with
  | some pr =>
      if pr.1 = password then
        some (jwt_encode [("username", ClaimVal.str username), ("role", ClaimVal.str pr.2)] SECRET_KEY)
      else none
  | none => none

/-- Strips an optional Bearer prefix from the header value, as the
middleware does before decoding. -/
def strip_bearer (t : String) : String :=
  if "Bearer ".data.isPrefixOf t.data then String.mk (t.data.drop 7) else t

/-- Python truthiness of the configured role argument: None and the empty
string are falsy. -/
def pyTruthyRole : Option String → Bool
  | none => false
  | some s => !s.isEmpty

/-- Outcome of one call through the decorator: either the wrapped
function's value or a json error response with a status code. -/
inductive GateResult (α : Type) where
  | ok (a : α)
  | errResp (msg : String) (code : Nat)
deriving DecidableEq

/-- Embedding of the requires_auth decorator applied to a wrapped
operation f: a missing or falsy Authorization header is rejected with
401, then the optional Bearer prefix is stripped, the token decoded
(failure gives 401), the role compared when one is configured (mismatch
gives 403), and otherwise f is applied to the verified claims. -/
def requires_auth {α : Type} (role : Option String) (f : JwtPayload → α)
    (authHeader : Option String) (now : Int) : GateResult α :=
  match authHeader with
  | none => GateResult.errResp "Authorization required" 401
  | some h =>
    if h = "" then GateResult.errResp "Authorization required" 401
    else
      match jwt_decode (strip_bearer h) SECRET_KEY now with
      | Except.error _ => GateResult.errResp "Invalid token" 401
      | Except.ok payload =>
          if pyTruthyRole role && !(List.lookup "role" payload == role.map ClaimVal.str) then
            GateResult.errResp "Insufficient permissions" 403
          else GateResult.ok (f payload)

/-! Executable semantics of the SQL fragment reached by the
string-interpolated queries of core.py: SELECT of named columns from one
table with a WHERE clause made of equality and LIKE comparisons joined
by AND and OR, string literals in single quotes with doubled-quote
escapes, and double-hyphen line comments.  A lexical or grammatical
error models the sqlite3 exception raised by cursor.execute. -/

/-- Tokens of the SQL fragment. -/
inductive SqlTok where
  | kwSelect
  | kwFrom
  | kwWhere
  | kwAnd
  | kwOr
  | kwLike
  | ident (s : String)
  | intLit (n : Int)
  | strLit (s : String)
  | comma
  | eqTok
deriving DecidableEq

/-- Identifier characters: letters, digits and underscore. -/
def isIdentCh (c : Char) : Bool := c.isAlpha || c.isDigit || c == '_'

/-- Takes the longest prefix satisfying the predicate. -/
def readWhile (p : Char → Bool) : List Char → List Char × List Char
  | [] => ([], [])
  | c :: t =>
      if p c then
        let r := readWhile p t
        (c :: r.1, r.2)
      else ([], c :: t)

/-- Reads the body of a single-quoted SQL string literal, treating a
doubled quote as an escaped quote; an unterminated literal is a lexical
error. -/
def readStr (fuel : Nat) (l : List Char) : Option (List Char × List Char) :=
  match fuel with
  | 0 => none
  | f + 1 =>
    match l with
    | [] => none
    | c :: t =>
        if c = squoteChar then
          match t with
          | c2 :: t2 =>
              if c2 = squoteChar then (readStr f t2).map (fun p => (squoteChar :: p.1, p.2))
              else some ([], t)
          | [] => some ([], [])
        else (readStr f t).map (fun p => (c :: p.1, p.2))

/-- Numeric value of a digit run. -/
def digitsVal (l : List Char) : Nat := l.foldl (fun a c => a * 10 + (c.toNat - 48)) 0

/-- Keyword recognition, case-insensitive as in SQL. -/
def keywordOf (s : String) : SqlTok :=
  let u := s.data.map Char.toUpper
  if u = "SELECT".data then SqlTok.kwSelect
  else if u = "FROM".data then SqlTok.kwFrom
  else if u = "WHERE".data then SqlTok.kwWhere
  else if u = "AND".data then SqlTok.kwAnd
  else if u = "OR".data then SqlTok.kwOr
  else if u = "LIKE".data then SqlTok.kwLike
  else SqlTok.ident s

/-- Tokenizer for the SQL fragment.  A double hyphen starts a comment
running to the end of the (single-line) statement. -/
def tokenize (fuel : Nat) (l : List Char) : Option (List SqlTok) :=
  match fuel with
  | 0 => match l with | [] => some [] | _ => none
  | f + 1 =>
    match l with
    | [] => some []
    | c :: t =>
        if c = ' ' then tokenize f t
        else if c = dashChar then
          match t with
          | c2 :: _ => if c2 = dashChar then some [] else none
          | [] => none
        else if c = squoteChar then
          match readStr (t.length + 1) t with
          | some p => (tokenize f p.2).map (fun ts => SqlTok.strLit (String.mk p.1) :: ts)
          | none => none
        else if c.isDigit then
          let r := readWhile Char.isDigit (c :: t)
          (tokenize f r.2).map (fun ts => SqlTok.intLit (digitsVal r.1 : Int) :: ts)
        else if isIdentCh c then
          let r := readWhile isIdentCh (c :: t)
          (tokenize f r.2).map (fun ts => keywordOf (String.mk r.1) :: ts)
        else if c = ',' then (tokenize f t).map (fun ts => SqlTok.comma :: ts)
        else if c = '=' then (tokenize f t).map (fun ts => SqlTok.eqTok :: ts)
        else none

/-- Tokenizes a whole query string. -/
def tokenizeStr (s : String) : Option (List SqlTok) := tokenize (s.data.length + 1) s.data

/-- Expressions of the WHERE clause. -/
inductive SqlExpr where
  | col (s : String)
  | litI (n : Int)
  | litS (s : String)
  | eqE (a b : SqlExpr)
  | likeE (a b : SqlExpr)
  | andE (a b : SqlExpr)
  | orE (a b : SqlExpr)
deriving DecidableEq

/-- Reads one atomic term: a column name or a literal. -/
def parseAtom : List SqlTok → Option (SqlExpr × List SqlTok)
  | SqlTok.ident s :: r => some (SqlExpr.col s, r)
  | SqlTok.intLit n :: r => some (SqlExpr.litI n, r)
  | SqlTok.strLit s :: r => some (SqlExpr.litS s, r)
  | _ => none

/-- Reads one comparison: a term, an equality or LIKE operator, and a
second term. -/
def parseCmp (ts : List SqlTok) : Option (SqlExpr × List SqlTok) :=
  match parseAtom ts with
  | some (a, r) =>
    match r with
    | SqlTok.eqTok :: r2 => (parseAtom r2).map (fun p => (SqlExpr.eqE a p.1, p.2))
    | SqlTok.kwLike :: r2 => (parseAtom r2).map (fun p => (SqlExpr.likeE a p.1, p.2))
    | _ => none
  | none => none

/-- Folds a chain of AND-joined comparisons. -/
def parseAndRest (fuel : Nat) (acc : SqlExpr) (ts : List SqlTok) : Option (SqlExpr × List SqlTok) :=
  match fuel with
  | 0 => none
  | f + 1 =>
    match ts with
    | SqlTok.kwAnd :: r =>
      match parseCmp r with
      | some (b, r2) => parseAndRest f (SqlExpr.andE acc b) r2
      | none => none
    | _ => some (acc, ts)

/-- Reads a conjunction. -/
def parseConj (fuel : Nat) (ts : List SqlTok) : Option (SqlExpr × List SqlTok) :=
  match parseCmp ts with
  | some (a, r) => parseAndRest fuel a r
  | none => none

/-- Folds a chain of OR-joined conjunctions, giving AND the higher
precedence. -/
def parseOrRest (fuel : Nat) (acc : SqlExpr) (ts : List SqlTok) : Option (SqlExpr × List SqlTok) :=
  match fuel with
  | 0 => none
  | f + 1 =>
    match ts with
    | SqlTok.kwOr :: r =>
      match parseConj (r.length + 1) r with
      | some (b, r2) => parseOrRest f (SqlExpr.orE acc b) r2
      | none => none
    | _ => some (acc, ts)

/-- Reads a disjunction. -/
def parseDisj (ts : List SqlTok) : Option (SqlExpr × List SqlTok) :=
  match parseConj (ts.length + 1) ts with
  | some (a, r) => parseOrRest (ts.length + 1) a r
  | none => none

/-- Reads the whole WHERE clause; trailing tokens are a syntax error. -/
def parseWhereExpr (ts : List SqlTok) : Option SqlExpr :=
  match parseDisj ts with
  | some (e, []) => some e
  | _ => none

/-- Reads the comma-separated projection list. -/
def parseCols (fuel : Nat) (ts : List SqlTok) : Option (List String × List SqlTok) :=
  match fuel with
  | 0 => none
  | f + 1 =>
    match ts with
    | SqlTok.ident s :: SqlTok.comma :: r => (parseCols f r).map (fun p => (s :: p.1, p.2))
    | SqlTok.ident s :: r => some ([s], r)
    | _ => none

/-- Reads a full SELECT statement of the fragment. -/
def parseSelect (ts : List SqlTok) : Option (List String × String × SqlExpr) :=
  match ts with
  | SqlTok.kwSelect :: r =>
    match parseCols (r.length + 1) r with
    | some (cs, SqlTok.kwFrom :: SqlTok.ident tbl :: SqlTok.kwWhere :: r2) =>
        (parseWhereExpr r2).map (fun e => (cs, tbl, e))
    | _ => none
  | _ => none

/-- Stored values: sqlite integers and text. -/
inductive SqlVal where
  | vInt (n : Int)
  | vStr (s : String)
deriving DecidableEq

/-- A row as the named values of its columns. -/
abbrev SqlRow := List (String × SqlVal)

/-- LIKE pattern matching: percent matches any run, underscore one
character, letters match case-insensitively, as sqlite does for
ASCII. -/
def likeMatch (fuel : Nat) (p s : List Char) : Bool :=
  match fuel with
  | 0 => false
  | f + 1 =>
    match p, s with
    | [], [] => true
    | [], _ :: _ => false
    | '%' :: pt, _ =>
        likeMatch f pt s ||
          (match s with
           | [] => false
           | _ :: st => likeMatch f ('%' :: pt) st)
    | '_' :: pt, _ :: st => likeMatch f pt st
    | c :: pt, d :: st => c.toLower == d.toLower && likeMatch f pt st
    | _ :: _, [] => false

/-- LIKE on strings with enough fuel for full matching. -/
def likeTop (pat s : String) : Bool :=
  likeMatch (pat.data.length + s.data.length + 1) pat.data s.data

/-- Evaluates an atomic term against a row. -/
def evalTerm (r : SqlRow) : SqlExpr → Option SqlVal
  | SqlExpr.col c => List.lookup c r
  | SqlExpr.litI n => some (SqlVal.vInt n)
  | SqlExpr.litS s => some (SqlVal.vStr s)
  | _ => none

/-- Equality between stored values; values of different storage classes
are unequal. -/
def valEq : SqlVal → SqlVal → Bool
  | SqlVal.vInt a, SqlVal.vInt b => a == b
  | SqlVal.vStr a, SqlVal.vStr b => a == b
  | _, _ => false

/-- Evaluates a WHERE expression against a row.  A reference to an
absent column or an ill-placed operator is an error. -/
def evalE (r : SqlRow) : SqlExpr → Option Bool
  | SqlExpr.eqE a b =>
    match evalTerm r a, evalTerm r b with
    | some x, some y => some (valEq x y)
    | _, _ => none
  | SqlExpr.likeE a b =>
    match evalTerm r a, evalTerm r b with
    | some (SqlVal.vStr s), some (SqlVal.vStr pat) => some (likeTop pat s)
    | _, _ => none
  | SqlExpr.andE a b =>
    match evalE r a, evalE r b with
    | some x, some y => some (x && y)
    | _, _ => none
  | SqlExpr.orE a b =>
    match evalE r a, evalE r b with
    | some x, some y => some (x || y)
    | _, _ => none
  | _ => none

/-- Keeps the rows satisfying the clause, propagating evaluation
errors. -/
def filterRows (e : SqlExpr) : List SqlRow → Option (List SqlRow)
  | [] => some []
  | r :: t =>
    match evalE r e, filterRows e t with
    | some b, some rest => some (if b then r :: rest else rest)
    | _, _ => none

/-- Projects one row onto the selected columns. -/
def projectRow (cols : List String) (r : SqlRow) : Option (List SqlVal) :=
  cols.mapM (fun c => List.lookup c r)

/-- Projects all kept rows. -/
def projectRows (cols : List String) (rows : List SqlRow) : Option (List (List SqlVal)) :=
  rows.mapM (projectRow cols)

/-- Runs one SELECT statement against the named tables, modelling
cursor.execute followed by fetchall on the interpolated query text; any
failure models the raised sqlite3 error. -/
def runSelect (tables : List (String × List SqlRow)) (q : String) : Option (List (List SqlVal)) :=
  match tokenizeStr q with
  | none => none
  | some ts =>
    match parseSelect ts with
    | none => none
    | some (cols, tbl, e) =>
      match List.lookup tbl tables with
      | none => none
      | some rows =>
        match filterRows e rows with
        | some kept => projectRows cols kept
        | none => none

/-! Embedding of src/chatbot/core.py (class ChatbotCore). -/

/-- A row of the users table. -/
structure UserRow where
  id : Int
  username : String
  password : String
deriving DecidableEq

/-- A row of the chat_history table.  Timestamps are modelled as the
value of a per-store logical clock taken at insertion. -/
structure ChatRow where
  id : Nat
  user_id : Int
  message : String
  response : String
  timestamp : Nat
deriving DecidableEq

/-- The chat_history table together with the autoincrement counter and
the clock supplying CURRENT_TIMESTAMP values. -/
structure Store where
  rows : List ChatRow
  nextId : Nat
  now : Nat
deriving DecidableEq

/-- A fresh store: sqlite autoincrement ids start at one. -/
def emptyStore : Store := ⟨[], 1, 0⟩

/-- One entry of the dictionaries returned by the history calls. -/
structure HistEntry where
  user_message : String
  bot_response : String
  timestamp : Nat
deriving DecidableEq

/-- The users table row seen by the SQL semantics. -/
def userToRow (u : UserRow) : SqlRow :=
  [("id", SqlVal.vInt u.id), ("username", SqlVal.vStr u.username),
   ("password", SqlVal.vStr u.password)]

/-- The chat_history row seen by the SQL semantics. -/
def chatToRow (r : ChatRow) : SqlRow :=
  [("id", SqlVal.vInt (r.id : Int)), ("user_id", SqlVal.vInt r.user_id),
   ("message", SqlVal.vStr r.message), ("response", SqlVal.vStr r.response),
   ("timestamp", SqlVal.vInt (r.timestamp : Int))]

/-- Rebuilds a result dictionary of the history calls from a projected
row of message, response and timestamp. -/
def rowToEntry : List SqlVal → Option HistEntry
  | [SqlVal.vStr m, SqlVal.vStr r, SqlVal.vInt t] => some ⟨m, r, t.toNat⟩
  | _ => none

/-- Embedding of ChatbotCore.authenticate_user: the username and
password are interpolated into the query text between single quotes and
the result row's id is returned; the except branch yields None, as does
an empty result. -/
def authenticate_user (users : List UserRow) (username password : String) : Option Int :=
  let q := "SELECT id, password FROM users WHERE username = " ++ sq ++ username ++ sq ++
    " AND password = " ++ sq ++ password ++ sq
  match runSelect [("users", users.map userToRow)] q with
  | none => none
  | some rows =>
    match rows with
    | [] => none
    | vals :: _ =>
      match vals with
      | SqlVal.vInt i :: _ => some i
      | _ => none

/-- Embedding of ChatbotCore.search_chat_history: the user id and the
keyword are interpolated into the query text, the keyword between
percent signs inside single quotes. -/
def searchQuery (userId : Int) (keyword : String) : String :=
  "SELECT message, response, timestamp FROM chat_history WHERE user_id = " ++
    toString userId ++ " AND message LIKE " ++ sq ++ "%" ++ keyword ++ "%" ++ sq

/-- The raw result of running the interpolated search query against the
chat_history table. -/
def searchRun (st : Store) (userId : Int) (keyword : String) : Option (List (List SqlVal)) :=
  runSelect [("chat_history", st.rows.map chatToRow)] (searchQuery userId keyword)

/-- Embedding of ChatbotCore.search_chat_history: runs the interpolated
query; a store failure or a sqlite error lands in the except branch,
which returns the empty list. -/
def search_chat_history (db : Option Store) (userId : Int) (keyword : String) : List HistEntry :=
  match db with
  | none => []
  | some st =>
    match searchRun st userId keyword with
    | none => []
    | some rows => rows.filterMap rowToEntry

/-- Descending insertion by timestamp, used to model ORDER BY timestamp
DESC. -/
def insertDesc (r : ChatRow) : List ChatRow → List ChatRow
  | [] => [r]
  | x :: t => if x.timestamp < r.timestamp then r :: x :: t else x :: insertDesc r t

/-- Sorts rows by timestamp, most recent first. -/
def sortTsDesc : List ChatRow → List ChatRow
  | [] => []
  | x :: t => insertDesc x (sortTsDesc t)

/-- Embedding of ChatbotCore.get_chat_history: a parameterized query
selecting the user's rows most recent first, bounded by the limit; the
except branch returns the empty list on a store failure. -/
def get_chat_history (db : Option Store) (userId : Int) (lim : Nat) : List HistEntry :=
  match db with
  | none => []
  | some st =>
    ((sortTsDesc (st.rows.filter (fun r => r.user_id == userId))).take lim).map
      (fun r => ⟨r.message, r.response, r.timestamp⟩)

/-- Embedding of ChatbotCore.generate_response: the cascading keyword
checks on the lower-cased message, in source order. -/
def generate_response (message : String) : String :=
  let m := String.mk (message.data.map Char.toLower)
  if containsSub "hello" m || containsSub "hi" m then
    "Hello! How can I assist you today?"
  else if containsSub "help" m then
    "I can help you with various tasks. What do you need assistance with?"
  else if containsSub "bye" m || containsSub "goodbye" m then
    "Goodbye! Have a great day!"
  else
    "I" ++ sq ++ "m still learning. Can you please rephrase your question?"

/-- The user branch of ChatbotCore.save_message: a parameterized INSERT
of the message with an empty response, taking the next autoincrement id
and the current timestamp. -/
def save_user_message (st : Store) (userId : Int) (msg : String) : Store :=
  ⟨st.rows ++ [⟨st.nextId, userId, msg, "", st.now⟩], st.nextId + 1, st.now + 1⟩

/-- Greatest element of a list of ids, as the MAX aggregate. -/
def listMaxNat : List Nat → Option Nat
  | [] => none
  | x :: t =>
    match listMaxNat t with
    | none => some x
    | some m => some (max x m)

/-- The bot branch of ChatbotCore.save_message: a parameterized UPDATE
filling the response of the row whose id is the greatest among the
user's rows; with no such row nothing changes. -/
def save_bot_response (st : Store) (userId : Int) (resp : String) : Store :=
  match listMaxNat ((st.rows.filter (fun r => r.user_id == userId)).map (fun r => r.id)) with
  | none => st
  | some m =>
      { st with
        rows := st.rows.map (fun r =>
          if r.user_id == userId && r.id == m then { r with response := resp } else r) }

/-- Embedding of ChatbotCore.process_message: store the raw user
message, generate the reply from the raw message, fill the latest turn
with the reply, return the reply.  The session id argument is accepted
and ignored, as in the source. -/
def process_message (st : Store) (userId : Int) (message : String) (sessionId : String) :
    String × Store :=
  let st1 := save_user_message st userId message
  let resp := generate_response message
  let st2 := save_bot_response st1 userId resp
  (resp, st2)

/-! Concrete data used by the claim instances. -/

/-- A users table holding the admin account. -/
def exUsers : List UserRow := [⟨1, "admin", "secure_hashed_password_123"⟩]

/-- A chat store holding one turn of user 1 and one turn of user 2. -/
def exStore : Store :=
  ⟨[⟨1, 1, "hello", "r1", 0⟩, ⟨2, 2, "secret", "r2", 1⟩], 3, 2⟩

/-- The injection keyword: closes the LIKE literal and appends an
always-true disjunct. -/
def kwInj : String := "x%" ++ sq ++ " OR " ++ sq ++ "1%" ++ sq ++ "=" ++ sq ++ "1"

/-- The injection username: closes the literal and comments out the
password check. -/
def unameInj : String := "admin" ++ sq ++ " --"

/-- The payload of the token issued to admin. -/
def padmin : JwtPayload := [("username", ClaimVal.str "admin"), ("role", ClaimVal.str "admin")]

/-- The token issued to admin by a successful authenticate call. -/
def tokAdmin : String := jwt_encode padmin SECRET_KEY

/-- A well-signed token whose payload carries no role claim. -/
def tokNoRole : String := jwt_encode [("username", ClaimVal.str "ghost")] SECRET_KEY

/-- The penetration-test vector for the sanitizer. -/
def sqlVec : String := "test" ++ sq ++ "; DROP TABLE users; --"

/-- What sanitize_sql actually produces on the vector. -/
def sqlVecOut : String := "test" ++ sq ++ " DROP TABLE users "

/-- Modelled from the spec: the claimed acceptance condition for emails,
a single at sign separating a nonempty local part from a nonempty domain
part that contains a dot.  It exists only to be compared with the
behaviour of validate_input. -/
def specEmailOk (l : List Char) : Bool :=
  (l.count '@' == 1) &&
    (let locl := l.takeWhile (fun c => !(c == '@'))
     let dmn := (l.dropWhile (fun c => !(c == '@'))).drop 1
     !locl.isEmpty && !dmn.isEmpty && dmn.contains '.')

/-! Helper lemmas. -/

theorem filterTwice {α : Type} (p : α → Bool) (l : List α) :
    (l.filter p).filter p = l.filter p := by
  induction l with
  | nil => rfl
  | cons a t ih => cases hpa : p a <;> simp [List.filter_cons, hpa, ih]

theorem mapIdOn {α : Type} (f : α → α) (l : List α) (h : ∀ a ∈ l, f a = a) :
    l.map f = l := by
  induction l with
  | nil => rfl
  | cons a t ih =>
      simp only [List.map_cons, h a (List.mem_cons_self a t)]
      rw [ih (fun b hb => h b (List.mem_cons_of_mem a hb))]

theorem listMaxNat_append (l : List Nat) (m : Nat) (h : ∀ x ∈ l, x < m) :
    listMaxNat (l ++ [m]) = some m := by
  induction l with
  | nil => rfl
  | cons a t ih =>
      have ha : a < m := h a (List.mem_cons_self a t)
      have ht : ∀ x ∈ t, x < m := fun x hx => h x (List.mem_cons_of_mem a hx)
      simp only [List.cons_append, listMaxNat, List.append_eq]
      rw [ih ht]
      simp [Nat.max_eq_right ha.le]

theorem runSelect_emptyTable (n q : String) :
    runSelect [(n, ([] : List SqlRow))] q = none ∨
      runSelect [(n, ([] : List SqlRow))] q = some [] := by
  cases htok : tokenizeStr q with
  | none => simp [runSelect, htok]
  | some ts =>
    cases hps : parseSelect ts with
    | none => simp [runSelect, htok, hps]
    | some r =>
      obtain ⟨cols, tbl, e⟩ := r
      by_cases htbl : tbl = n
      · subst htbl
        simp [runSelect, htok, hps, List.lookup, filterRows, projectRows,
          List.mapM, List.mapM.loop]
      · have hbeq : (tbl == n) = false := beq_eq_false_iff_ne.mpr htbl
        simp [runSelect, htok, hps, List.lookup, hbeq]

theorem dotScan_iff (l : List Char) :
    dotScan l = true ↔ ∃ b c0 d, l = b ++ '.' :: c0 :: d ∧ '@' ∉ b ∧ c0 ≠ '@' := by
  induction l with
  | nil =>
      simp only [dotScan, Bool.false_eq_true, false_iff]
      rintro ⟨b, c0, d, h, -, -⟩
      cases b <;> simp_all
  | cons c t ih =>
      simp only [dotScan, Bool.or_eq_true, Bool.and_eq_true, beq_iff_eq,
        Bool.not_eq_eq_eq_not, Bool.not_true, beq_eq_false_iff_ne]
      constructor
      · rintro (⟨hc, hh⟩ | ⟨hc, hd⟩)
        · subst hc
          match t, hh with
          | c0 :: d, hh =>
            refine ⟨[], c0, d, rfl, by simp, ?_⟩
            simp only [headNonAt, Bool.not_eq_eq_eq_not, Bool.not_true,
              beq_eq_false_iff_ne] at hh
            exact hh
        · obtain ⟨b, c0, d, ht, hb, hc0⟩ := ih.mp hd
          refine ⟨c :: b, c0, d, by rw [ht]; rfl, ?_, hc0⟩
          intro hmem
          rcases List.mem_cons.mp hmem with h | h
          · exact hc h.symm
          · exact hb h
      · rintro ⟨b, c0, d, heq, hb, hc0⟩
        cases b with
        | nil =>
            simp only [List.nil_append, List.cons.injEq] at heq
            obtain ⟨hc, ht⟩ := heq
            subst hc; subst ht
            left
            refine ⟨rfl, ?_⟩
            simp [headNonAt, hc0]
        | cons b0 bt =>
            simp only [List.cons_append, List.cons.injEq] at heq
            obtain ⟨hc, ht⟩ := heq
            subst hc
            right
            refine ⟨fun h => hb (by rw [h]; exact List.mem_cons_self _ _), ?_⟩
            exact ih.mpr ⟨bt, c0, d, ht, fun h => hb (List.mem_cons_of_mem c h), hc0⟩

theorem afterAt_iff (l : List Char) :
    afterAt l = true ↔
      ∃ b c0 d, l = b ++ '.' :: c0 :: d ∧ b ≠ [] ∧ '@' ∉ b ∧ c0 ≠ '@' := by
  cases l with
  | nil =>
      simp only [afterAt, Bool.false_eq_true, false_iff]
      rintro ⟨b, c0, d, h, hbne, -, -⟩
      cases b <;> simp_all
  | cons c t =>
      simp only [afterAt, Bool.and_eq_true, Bool.not_eq_eq_eq_not, Bool.not_true,
        beq_eq_false_iff_ne]
      constructor
      · rintro ⟨hc, hd⟩
        obtain ⟨b, c0, d, ht, hb, hc0⟩ := (dotScan_iff t).mp hd
        refine ⟨c :: b, c0, d, by rw [ht]; rfl, by simp, ?_, hc0⟩
        intro hmem
        rcases List.mem_cons.mp hmem with h | h
        · exact hc h.symm
        · exact hb h
      · rintro ⟨b, c0, d, heq, hbne, hb, hc0⟩
        cases b with
        | nil => exact absurd rfl hbne
        | cons b0 bt =>
            simp only [List.cons_append, List.cons.injEq] at heq
            obtain ⟨hc, ht⟩ := heq
            subst hc
            refine ⟨fun h => hb (by rw [h]; exact List.mem_cons_self _ _), ?_⟩
            exact (dotScan_iff t).mpr ⟨bt, c0, d, ht, fun h => hb (List.mem_cons_of_mem c h), hc0⟩

theorem atScan_iff (l : List Char) :
    atScan l = true ↔
      ∃ a rest, l = a ++ '@' :: rest ∧ '@' ∉ a ∧ afterAt rest = true := by
  induction l with
  | nil =>
      simp only [atScan, Bool.false_eq_true, false_iff]
      rintro ⟨a, rest, h, -, -⟩
      cases a <;> simp_all
  | cons c t ih =>
      simp only [atScan, Bool.or_eq_true, Bool.and_eq_true, beq_iff_eq,
        Bool.not_eq_eq_eq_not, Bool.not_true, beq_eq_false_iff_ne]
      constructor
      · rintro (⟨hc, hh⟩ | ⟨hc, hd⟩)
        · subst hc
          exact ⟨[], t, rfl, by simp, hh⟩
        · obtain ⟨a, rest, ht, ha, hrest⟩ := ih.mp hd
          refine ⟨c :: a, rest, by rw [ht]; rfl, ?_, hrest⟩
          intro hmem
          rcases List.mem_cons.mp hmem with h | h
          · exact hc h.symm
          · exact ha h
      · rintro ⟨a, rest, heq, ha, hrest⟩
        cases a with
        | nil =>
            simp only [List.nil_append, List.cons.injEq] at heq
            obtain ⟨hc, ht⟩ := heq
            subst hc; subst ht
            exact Or.inl ⟨rfl, hrest⟩
        | cons a0 at2 =>
            simp only [List.cons_append, List.cons.injEq] at heq
            obtain ⟨hc, ht⟩ := heq
            subst hc
            right
            refine ⟨fun h => ha (by rw [h]; exact List.mem_cons_self _ _), ?_⟩
            exact ih.mpr ⟨at2, rest, ht, fun h => ha (List.mem_cons_of_mem c h), hrest⟩

theorem emailMatch_iff (l : List Char) : emailMatch l = true ↔ EmailDecomp l := by
  cases l with
  | nil =>
      simp only [emailMatch, Bool.false_eq_true, false_iff, EmailDecomp]
      rintro ⟨a, b, c0, d, h, hane, -, -, -, -⟩
      cases a <;> simp_all
  | cons c t =>
      simp only [emailMatch, Bool.and_eq_true, Bool.not_eq_eq_eq_not, Bool.not_true,
        beq_eq_false_iff_ne, EmailDecomp]
      constructor
      · rintro ⟨hc, hscan⟩
        obtain ⟨a, rest, ht, ha, hrest⟩ := (atScan_iff t).mp hscan
        obtain ⟨b, c0, d, hrest2, hbne, hb, hc0⟩ := (afterAt_iff rest).mp hrest
        refine ⟨c :: a, b, c0, d, ?_, by simp, hbne, ?_, hb, hc0⟩
        · rw [ht, hrest2]; rfl
        · intro hmem
          rcases List.mem_cons.mp hmem with h | h
          · exact hc h.symm
          · exact ha h
      · rintro ⟨a, b, c0, d, heq, hane, hbne, ha, hb, hc0⟩
        cases a with
        | nil => exact absurd rfl hane
        | cons a0 at2 =>
            simp only [List.cons_append, List.cons.injEq] at heq
            obtain ⟨hc, ht⟩ := heq
            subst hc
            refine ⟨fun h => ha (by rw [h]; exact List.mem_cons_self _ _), ?_⟩
            refine (atScan_iff t).mpr ⟨at2, b ++ '.' :: c0 :: d, ht,
              fun h => ha (List.mem_cons_of_mem c h), ?_⟩
            exact (afterAt_iff _).mpr ⟨b, c0, d, rfl, hbne, hb, hc0⟩

/-! Lemmas about the access-control gate, shared by the gate claims. -/

theorem bearer_strip (h : String) : strip_bearer ("Bearer " ++ h) = h := by
  unfold strip_bearer
  have hpre : "Bearer ".data.isPrefixOf ("Bearer " ++ h).data = true := by
    rw [String.data_append]
    exact List.isPrefixOf_iff_prefix.mpr (List.prefix_append _ _)
  rw [if_pos hpre]
  rw [String.data_append]
  have hlen : ("Bearer ".data).length = 7 := rfl
  rw [← hlen, List.drop_left]

theorem gate_invalid {α : Type} (role : Option String) (f : JwtPayload → α) (now : Int)
    (h : String) (e : JwtError) (hne : h ≠ "")
    (hdec : jwt_decode (strip_bearer h) SECRET_KEY now = Except.error e) :
    requires_auth role f (some h) now = GateResult.errResp "Invalid token" 401 := by
  simp [requires_auth, hne, hdec]

theorem gate_wrong_role {α : Type} (f : JwtPayload → α) (now : Int)
    (h : String) (payload : JwtPayload) (r : String) (hne : h ≠ "")
    (hdec : jwt_decode (strip_bearer h) SECRET_KEY now = Except.ok payload)
    (hrne : r ≠ "")
    (hmiss : List.lookup "role" payload ≠ some (ClaimVal.str r)) :
    requires_auth (some r) f (some h) now =
      GateResult.errResp "Insufficient permissions" 403 := by
  have hemp : r.isEmpty = false := by
    cases hemp : r.isEmpty
    · rfl
    · exact absurd ((String.isEmpty_iff r).mp hemp) hrne
  have h1 : pyTruthyRole (some r) = true := by
    simp [pyTruthyRole, hemp]
  simp [requires_auth, hne, hdec, h1, hmiss]

theorem gate_pass {α : Type} (role : Option String) (f : JwtPayload → α) (now : Int)
    (h : String) (payload : JwtPayload) (hne : h ≠ "")
    (hdec : jwt_decode (strip_bearer h) SECRET_KEY now = Except.ok payload)
    (hok : role = none ∨ List.lookup "role" payload = role.map ClaimVal.str) :
    requires_auth role f (some h) now = GateResult.ok (f payload) := by
  rcases hok with hnone | heq
  · subst hnone
    simp [requires_auth, hne, hdec, pyTruthyRole]
  · simp [requires_auth, hne, hdec, heq]

/-! Claim theorems. -/

/-- C1: the claim says search_chat_history never returns a turn of a
different user, for arbitrary keywords including metacharacters.  On the
code this fails: the keyword is interpolated into the query text, and a
keyword closing the quoted LIKE pattern and appending an always-true
disjunct makes the search run as a tautology, returning the turn with
message secret that belongs to user 2 in a search scoped to user 1. -/
theorem C1_search_scope_broken :
    search_chat_history (some exStore) 1 kwInj =
      [⟨"hello", "r1", 0⟩, ⟨"secret", "r2", 1⟩] ∧
    (∀ r ∈ exStore.rows, r.message = "secret" → r.user_id = 2) ∧
    search_chat_history (some exStore) 1 "ell" = [⟨"hello", "r1", 0⟩] := by
  refine ⟨by decide, by decide, by decide⟩

/-- C2: the claim says both credential checks fail with an invalid
credential for the wrong admin password and for any metacharacter
username.  The in-memory authenticate does fail on both, but the
database-backed authenticate_user interpolates the username into the
query text, so the username closing the quote and starting a comment
discards the password check and authentication succeeds with the admin
row's id. -/
theorem C2_login_injection_bypass :
    authenticate "admin" "wrong_password" = none ∧
    authenticate unameInj "any_password" = none ∧
    authenticate_user exUsers "admin" "wrong_password" = none ∧
    authenticate_user exUsers unameInj "any_password" = some 1 := by
  refine ⟨by decide, by decide, by decide, by decide⟩

/-- C6 counterexample: the claim says a store failure surfaces a
distinguishable error rather than a successful-looking empty result, but
the except branches of both history calls return the empty list, which
is exactly the success result on an empty store, so the caller cannot
tell no data from store failure. -/
theorem C6_failure_indistinguishable :
    get_chat_history none 1 10 = get_chat_history (some emptyStore) 1 10 ∧
    search_chat_history none 1 "a" = search_chat_history (some emptyStore) 1 "a" ∧
    get_chat_history none 1 10 = [] ∧
    search_chat_history none 1 "a" = [] := by
  refine ⟨by decide, by decide, rfl, rfl⟩

/-- C6 amended: on a store failure get_chat_history and
search_chat_history return the empty list, the same value they return on
a successfully queried empty store; the failure is swallowed, not
surfaced. -/
theorem C6_failure_returns_empty (uid : Int) (lim : Nat) (kw : String) :
    get_chat_history none uid lim = [] ∧
    search_chat_history none uid kw = [] ∧
    get_chat_history (some emptyStore) uid lim = [] ∧
    search_chat_history (some emptyStore) uid kw = [] := by
  refine ⟨rfl, rfl, by simp [get_chat_history, sortTsDesc, emptyStore], ?_⟩
  have hrun : searchRun emptyStore uid kw = none ∨ searchRun emptyStore uid kw = some [] :=
    runSelect_emptyTable "chat_history" (searchQuery uid kw)
  unfold search_chat_history
  show (match searchRun emptyStore uid kw with
    | none => []
    | some rows => List.filterMap rowToEntry rows) = []
  rcases hrun with h | h <;> rw [h]
  rfl

/-- C7 counterexample: the claim says only the two-character sequence of
hyphens is removed and a lone hyphen is preserved; the code removes
every hyphen, as the comparison with the spec-worded removal shows on
the one-hyphen input. -/
theorem C7_lone_hyphen_removed :
    sanitize_sql "a-b" = "ab" ∧ spec_strip_sql "a-b" = "a-b" ∧
    sanitize_sql "a-b" ≠ spec_strip_sql "a-b" := by
  refine ⟨by decide, by decide, by decide⟩

/-- C7 amended: sanitize_sql removes exactly the characters semicolon,
hyphen and double quote, each wherever it occurs, and keeps everything
else, single quotes included; lone hyphens are therefore removed too.
On the penetration-test vector the result is the expected string, which
contains no semicolon and no double hyphen. -/
theorem C7_char_filter :
    (∀ s : String, List.Sublist (sanitize_sql s).data s.data) ∧
    (∀ s : String, ∀ c ∈ (sanitize_sql s).data,
      ¬(c = semiChar ∨ c = dashChar ∨ c = dquoteChar)) ∧
    sanitize_sql sqlVec = sqlVecOut ∧
    hasSub ";".data sqlVecOut.data = false ∧
    hasSub "--".data sqlVecOut.data = false := by
  refine ⟨?_, ?_, by decide, by decide, by decide⟩
  · intro s
    exact List.filter_sublist s.data
  · intro s c hc
    have hmem := (List.mem_filter.mp hc).2
    simp only [badSqlChar, Bool.not_eq_eq_eq_not, Bool.not_true, Bool.or_eq_false_iff,
      beq_eq_false_iff_ne] at hmem
    rintro (h | h | h)
    · exact hmem.1.1 h
    · exact hmem.1.2 h
    · exact hmem.2 h

/-- C7 witness: the second clause applied at a concrete character kept
by the filter. -/
theorem C7_char_filter_witness :
    ¬(('a' : Char) = semiChar ∨ ('a' : Char) = dashChar ∨ ('a' : Char) = dquoteChar) :=
  C7_char_filter.2.1 "a;b" 'a' (by decide)

/-- C10: sanitize_sql is idempotent, because its output never contains
any character of the removed class. -/
theorem C10_sanitize_idempotent (s : String) :
    sanitize_sql (sanitize_sql s) = sanitize_sql s := by
  unfold sanitize_sql
  exact congrArg String.mk (filterTwice _ s.data)

/-- C8 counterexample: the claim requires inputs with more than one at
sign to fail, but the regex is anchored only at the start, so the input
with a second at sign after a valid-looking prefix passes validation and
is returned; the spec-worded single-at condition rejects it. -/
theorem C8_second_at_accepted :
    specEmailOk "a@b.c@d".data = false ∧
    validate_input "a@b.c@d" InputType.email = Except.ok "a@b.c@d" := by
  exact ⟨by decide, rfl⟩

/-- C8 amended: email validation succeeds exactly when the input is
empty, or the stripped input has a prefix made of a nonempty at-free
local part, an at sign, a nonempty at-free run, a dot, and one further
non-at character; anything may follow that prefix, so extra at signs or
trailing characters after such a prefix do not cause failure. -/
theorem C8_email_accept_iff (s : String) :
    (∃ t, validate_input s InputType.email = Except.ok t) ↔
      (s = "" ∨ EmailDecomp (pyStrip s).data) := by
  by_cases hs : s = ""
  · subst hs
    simp [validate_input]
  · constructor
    · rintro ⟨t, ht⟩
      cases hm : emailMatch (pyStrip s).data
      · simp [validate_input, hs, hm] at ht
      · exact Or.inr ((emailMatch_iff _).mp hm)
    · rintro (h | hd)
      · exact absurd h hs
      · refine ⟨escapeHtml (pyStrip s), ?_⟩
        have hm : emailMatch (pyStrip s).data = true := (emailMatch_iff _).mpr hd
        simp [validate_input, hs, hm]

/-- C8 witness: the amended equivalence applied at a concrete address. -/
theorem C8_email_accept_iff_witness :
    ∃ t, validate_input "x@y.zw" InputType.email = Except.ok t :=
  (C8_email_accept_iff "x@y.zw").mpr
    (Or.inr ⟨"x".data, "y".data, 'z', "w".data, by decide, by decide, by decide,
      by decide, by decide, by decide⟩)

/-- C3 counterexample: the claim says issued tokens carry exactly the
claims username, role, issued_at and expiry and that verification
rejects elapsed tokens as expired.  The token issued to admin carries
exactly username and role, no issued_at and no expiry, and it still
decodes successfully at an arbitrarily late time. -/
theorem C3_token_fields_missing :
    authenticate "admin" "secure_hashed_password_123" = some tokAdmin ∧
    jwt_decode tokAdmin SECRET_KEY 1000000000 = Except.ok padmin ∧
    padmin.map Prod.fst = ["username", "role"] ∧
    ("issued_at" ∉ padmin.map Prod.fst) ∧ ("expiry" ∉ padmin.map Prod.fst) := by
  exact ⟨rfl, rfl, rfl, by decide, by decide⟩

/-- C3 amended: every token issued by a successful credential check is a
signed claim set holding exactly the username and role claims; since no
expiry claim is present, verification succeeds at every time and never
fails as expired. -/
theorem C3_token_shape (u p tok : String) (now : Int)
    (h : authenticate u p = some tok) :
    ∃ r, jwt_decode tok SECRET_KEY now =
        Except.ok [("username", ClaimVal.str u), ("role", ClaimVal.str r)] ∧
      List.lookup "exp" [("username", ClaimVal.str u), ("role", ClaimVal.str r)] = none ∧
      ([(("username" : String), ClaimVal.str u), ("role", ClaimVal.str r)]).map Prod.fst =
        ["username", "role"] := by
  by_cases h1 : u = "admin"
  · subst h1
    simp only [authenticate, USERS, List.lookup, beq_self_eq_true] at h
    by_cases h2 : ("secure_hashed_password_123" : String) = p
    · rw [if_pos h2, Option.some.injEq] at h
      subst h
      exact ⟨"admin", by rfl, rfl, rfl⟩
    · rw [if_neg h2] at h
      exact absurd h (by simp)
  · by_cases h1b : u = "user"
    · subst h1b
      have hb1 : (("user" : String) == "admin") = false := by decide
      simp only [authenticate, USERS, List.lookup, hb1, beq_self_eq_true] at h
      by_cases h2 : ("another_hashed_password_456" : String) = p
      · rw [if_pos h2, Option.some.injEq] at h
        subst h
        exact ⟨"user", by rfl, rfl, rfl⟩
      · rw [if_neg h2] at h
        exact absurd h (by simp)
    · have hb1 : (u == "admin") = false := beq_eq_false_iff_ne.mpr h1
      have hb2 : (u == "user") = false := beq_eq_false_iff_ne.mpr h1b
      simp only [authenticate, USERS, List.lookup, hb1, hb2] at h
      exact absurd h (by simp)

/-- C3 witness: the amended theorem applied to the admin login. -/
theorem C3_token_shape_witness :
    ∃ r, jwt_decode tokAdmin SECRET_KEY 999999 =
        Except.ok [("username", ClaimVal.str "admin"), ("role", ClaimVal.str r)] ∧
      List.lookup "exp" [("username", ClaimVal.str "admin"), ("role", ClaimVal.str r)] = none ∧
      ([(("username" : String), ClaimVal.str "admin"), ("role", ClaimVal.str r)]).map Prod.fst =
        ["username", "role"] :=
  C3_token_shape "admin" "secure_hashed_password_123" tokAdmin 999999 rfl

/-- C4: the access-control gate is a pure decision function: a missing
or empty Authorization header yields the 401 authorization-required
response and the operation is not run; a Bearer prefix is stripped
before decoding; a failed decode yields the 401 invalid-token response;
a configured role that the verified claims do not match yields the 403
insufficient-permissions response; otherwise the wrapped operation is
applied exactly once to the verified claims, witnessed by the
singleton-collecting instantiation in the last clause. -/
theorem C4_gate_contract {α : Type} (role : Option String) (f : JwtPayload → α) (now : Int) :
    (requires_auth role f none now = GateResult.errResp "Authorization required" 401) ∧
    (requires_auth role f (some "") now = GateResult.errResp "Authorization required" 401) ∧
    (∀ h : String, strip_bearer ("Bearer " ++ h) = h) ∧
    (∀ (h : String) (e : JwtError), h ≠ "" →
      jwt_decode (strip_bearer h) SECRET_KEY now = Except.error e →
      requires_auth role f (some h) now = GateResult.errResp "Invalid token" 401) ∧
    (∀ (h : String) (payload : JwtPayload) (r : String), h ≠ "" →
      jwt_decode (strip_bearer h) SECRET_KEY now = Except.ok payload →
      role = some r → r ≠ "" →
      List.lookup "role" payload ≠ some (ClaimVal.str r) →
      requires_auth role f (some h) now = GateResult.errResp "Insufficient permissions" 403) ∧
    (∀ (h : String) (payload : JwtPayload), h ≠ "" →
      jwt_decode (strip_bearer h) SECRET_KEY now = Except.ok payload →
      (role = none ∨ List.lookup "role" payload = role.map ClaimVal.str) →
      requires_auth role f (some h) now = GateResult.ok (f payload)) ∧
    (∀ (h : String) (payload : JwtPayload), h ≠ "" →
      jwt_decode (strip_bearer h) SECRET_KEY now = Except.ok payload →
      (role = none ∨ List.lookup "role" payload = role.map ClaimVal.str) →
      requires_auth role (fun q => [q]) (some h) now = GateResult.ok [payload]) := by
  refine ⟨rfl, rfl, bearer_strip, ?_, ?_, ?_, ?_⟩
  · intro h e hne hdec
    exact gate_invalid role f now h e hne hdec
  · intro h payload r hne hdec hrole hrne hmiss
    subst hrole
    exact gate_wrong_role f now h payload r hne hdec hrne hmiss
  · intro h payload hne hdec hok
    exact gate_pass role f now h payload hne hdec hok
  · intro h payload hne hdec hok
    exact gate_pass role (fun q => [q]) now h payload hne hdec hok

/-- C4 witness: the gate run on the admin token with the Bearer prefix
invokes the wrapped operation once with the decoded claims, and the run
with no header is rejected. -/
theorem C4_gate_contract_witness :
    requires_auth (some "admin") (fun q : JwtPayload => [q])
        (some ("Bearer " ++ tokAdmin)) 0 = GateResult.ok [padmin] ∧
    requires_auth (some "admin") (fun q : JwtPayload => [q]) none 0 =
      GateResult.errResp "Authorization required" 401 := by
  constructor
  · exact (C4_gate_contract (some "admin") (fun q : JwtPayload => [q]) 0).2.2.2.2.2.2
      ("Bearer " ++ tokAdmin) padmin (by decide)
      (by rw [bearer_strip]; rfl)
      (Or.inr rfl)
  · exact (C4_gate_contract (some "admin") (fun q : JwtPayload => [q]) 0).1

/-- C9: a well-signed token whose payload has no role claim is rejected
with the 403 insufficient-permissions response whenever a nonempty role
is required, and is accepted, invoking the wrapped operation on the
decoded claims, when no role is configured. -/
theorem C9_missing_role_claim {α : Type} (f : JwtPayload → α) (tok : String)
    (payload : JwtPayload) (now : Int) (hne : tok ≠ "")
    (hdec : jwt_decode (strip_bearer tok) SECRET_KEY now = Except.ok payload)
    (hrole : List.lookup "role" payload = none) :
    (∀ r : String, r ≠ "" →
      requires_auth (some r) f (some tok) now =
        GateResult.errResp "Insufficient permissions" 403) ∧
    requires_auth none f (some tok) now = GateResult.ok (f payload) := by
  constructor
  · intro r hr
    refine gate_wrong_role f now tok payload r hne hdec hr ?_
    rw [hrole]
    exact fun hcon => Option.noConfusion hcon
  · exact gate_pass none f now tok payload hne hdec (Or.inl rfl)

/-- C9 witness: the theorem applied to a concrete well-signed token
without a role claim. -/
theorem C9_missing_role_claim_witness :
    requires_auth (some "admin") (fun q : JwtPayload => [q]) (some tokNoRole) 0 =
      GateResult.errResp "Insufficient permissions" 403 ∧
    requires_auth none (fun q : JwtPayload => [q]) (some tokNoRole) 0 =
      GateResult.ok [[("username", ClaimVal.str "ghost")]] := by
  have h := C9_missing_role_claim (fun q : JwtPayload => [q]) tokNoRole
    [("username", ClaimVal.str "ghost")] 0 (by decide) (by rfl) (by rfl)
  exact ⟨h.1 "admin" (by decide), h.2⟩

/-- C5 counterexample: the claim says the persisted message field is the
sanitized text; the code persists the raw message, which differs from
the sanitized form of the same input. -/
theorem C5_raw_message_persisted :
    (process_message emptyStore 1 "<b>" "s").2.rows.map (fun r => r.message) = ["<b>"] ∧
    validate_input "<b>" InputType.text = Except.ok "&lt;b&gt;" ∧
    ("<b>" : String) ≠ "&lt;b&gt;" := by
  exact ⟨by decide, rfl, by decide⟩

/-- C5 amended: one chat turn stores the raw message with no
sanitization step, generates the reply from the raw message, fills the
response of the turn just opened, and returns the reply: when every
existing row id is below the store's next id, the call appends exactly
one completed turn holding the raw message and the generated reply, and
no other row changes. -/
theorem C5_process_message_shape (st : Store) (uid : Int) (msg sid : String)
    (hwf : ∀ r ∈ st.rows, r.id < st.nextId) :
    process_message st uid msg sid =
      (generate_response msg,
        ⟨st.rows ++ [⟨st.nextId, uid, msg, generate_response msg, st.now⟩],
          st.nextId + 1, st.now + 1⟩) := by
  have hfil : (st.rows ++ [(⟨st.nextId, uid, msg, "", st.now⟩ : ChatRow)]).filter
      (fun r => r.user_id == uid) =
      st.rows.filter (fun r => r.user_id == uid) ++ [⟨st.nextId, uid, msg, "", st.now⟩] := by
    rw [List.filter_append]
    simp
  have hmax : listMaxNat (((st.rows ++
      [(⟨st.nextId, uid, msg, "", st.now⟩ : ChatRow)]).filter
      (fun r => r.user_id == uid)).map (fun r => r.id)) = some st.nextId := by
    rw [hfil, List.map_append]
    refine listMaxNat_append _ _ ?_
    intro x hx
    simp only [List.mem_map] at hx
    obtain ⟨r, hr, hxe⟩ := hx
    rw [← hxe]
    exact hwf r (List.mem_of_mem_filter hr)
  simp only [process_message, save_user_message, save_bot_response, hmax]
  refine congrArg (fun rs => (generate_response msg, Store.mk rs (st.nextId + 1) (st.now + 1))) ?_
  rw [List.map_append]
  have h1 : st.rows.map (fun r =>
      if r.user_id == uid && r.id == st.nextId then
        { r with response := generate_response msg } else r) = st.rows := by
    refine mapIdOn _ _ ?_
    intro r hr
    have hid : (r.id == st.nextId) = false :=
      beq_eq_false_iff_ne.mpr (Nat.ne_of_lt (hwf r hr))
    simp [hid]
  rw [h1]
  simp

/-- C5 witness: the amended description applied to a fresh store. -/
theorem C5_process_message_shape_witness :
    process_message emptyStore 1 "abc" "s" =
      (generate_response "abc",
        ⟨[⟨1, 1, "abc", generate_response "abc", 0⟩], 2, 1⟩) :=
  C5_process_message_shape emptyStore 1 "abc" "s"
    (by intro r hr; exact absurd hr (List.not_mem_nil r))

end SecAudit
